import Mathlib

/-!
Shallow embedding of `leptos-cloudflare/src/lib.rs` (a Leptos server-side
rendering integration for Cloudflare Workers) and proofs about the claims of
its specification.

Modelling conventions, fixed once for the whole development:

* `worker::Headers` wraps a JavaScript `Headers` object: header names are
  ASCII-case-insensitive (the JS object normalizes names to lowercase),
  `set` overwrites every entry with the same name, `append` adds an entry
  alongside existing ones.  We model it as an insertion-ordered entry list
  with names normalized through an explicit ASCII lowercase map.
* `worker::Headers` implements a deep `Clone` (workers-rs builds a fresh JS
  `Headers` holding the same entries), and `ResponseOptions` derives `Clone`
  from it, so cloning a `ResponseOptions` yields an independent value: a
  mutation of the clone is never seen through the original.  Lean's value
  semantics model this directly — every Rust `clone()` is just value passing.
* `leptos::use_context::<T>()` returns a clone of the context-stored value.
  Code such as `redirect` therefore mutates a clone that is dropped when the
  function returns; we make the dropped clone an explicit result component so
  that the theorems can exhibit exactly where such mutations end up.
* Machine integers (`u16` status codes) are modelled as `Nat`; no arithmetic
  in this code can overflow a `u16`.
* Fragment streams are lazy in the source; every ordering-sensitive claim is
  settled against an explicit event trace (`Ev`) that records, in program
  order, the points where the source pulls a fragment, reads the response
  metadata, opens the HTTP response, and hands a chunk to the transport.
-/

deriving instance DecidableEq for Except

namespace LeptosCloudflare

/-- ASCII lowercase of one character, structural so the kernel can reduce it. -/
def lowerChar (c : Char) : Char :=
  if 65 ≤ c.toNat ∧ c.toNat ≤ 90 then Char.ofNat (c.toNat + 32) else c

/-- Header-name normalization performed by the JS `Headers` object. -/
def lowerKey (s : String) : String := ⟨s.data.map lowerChar⟩

/-- Model of `worker::Headers`: an insertion-ordered list of (name, value)
entries with names stored lowercase, as the JS `Headers` object keeps them. -/
structure Headers where
  entries : List (String × String)
deriving DecidableEq

/-- `worker::Headers::new()`. -/
def Headers.empty : Headers := ⟨[]⟩

/-- `Headers::set` (JS `Headers.set`): drop every entry with the same
(case-insensitively compared) name, then add the new entry. -/
def Headers.set (h : Headers) (k v : String) : Headers :=
  ⟨h.entries.filter (fun e => e.1 ≠ lowerKey k) ++ [(lowerKey k, v)]⟩

/-- `Headers::append` (JS `Headers.append`): add an entry, leaving entries
with the same name intact. -/
def Headers.append (h : Headers) (k v : String) : Headers :=
  ⟨h.entries ++ [(lowerKey k, v)]⟩

/-- All values stored under a name (case-insensitive lookup). -/
def Headers.getAll (h : Headers) (k : String) : List String :=
  (h.entries.filter (fun e => e.1 = lowerKey k)).map (fun e => e.2)

/-- Model of `ResponseOptions` (lib.rs 37-40): optional status override plus a
worker `Headers` value.  Its derived `Clone` deep-copies the headers. -/
structure ResponseOptions where
  status : Option Nat
  headers : Headers
deriving DecidableEq

/-- `Default for ResponseOptions` (lib.rs 665-672): status `Some(200)`,
empty headers. -/
def ResponseOptions.default : ResponseOptions :=
  { status := some 200, headers := Headers.empty }

/-- `ResponseOptions::insert_header` (lib.rs 625-627): `Headers::set`. -/
def ResponseOptions.insert_header (ro : ResponseOptions) (k v : String) :
    ResponseOptions :=
  { ro with headers := ro.headers.set k v }

/-- `ResponseOptions::append_header` (lib.rs 629-631): `Headers::append`. -/
def ResponseOptions.append_header (ro : ResponseOptions) (k v : String) :
    ResponseOptions :=
  { ro with headers := ro.headers.append k v }

/-- The five HTTP methods of `leptos_router::Method` (and the five
`worker::Router` registration calls in lib.rs). -/
inductive WMethod
  | get | post | put | delete | patch
deriving DecidableEq

/-- A parsed request URL; its internal structure is irrelevant to every claim,
so it is kept opaque. -/
structure Url where
  raw : String
deriving DecidableEq

/-- The fallible observations `generate_request_parts` makes on a raw
`worker::Request`: `req.bytes()` may fail (its error is swallowed by
`unwrap_or_default`), `req.url()` may fail (propagated with `?`);
`req.method()`, `req.headers()` and `req.inner()` are infallible reads.
The `web_sys::Request` payload of `edge_request` is opaque to every claim
and modelled as `Unit`. -/
structure RawRequest where
  bytes_result : Except String (List Nat)
  method : WMethod
  headers : Headers
  url_result : Except String Url
  edge_request : Except String Unit
deriving DecidableEq

/-- Model of `RequestParts` (lib.rs 26-32). -/
structure RequestParts where
  body : List Nat
  method : WMethod
  headers : Headers
  url : Url
  edge_request : Except String Unit
deriving DecidableEq

/-- Model of `generate_request_parts` (lib.rs 55-69): buffer the body
(`unwrap_or_default` replaces a read failure by the empty byte sequence),
read method, headers and the edge request, then propagate the result of URL
parsing with `?`. -/
def generate_request_parts (req : RawRequest) : Except String RequestParts :=
  let body := match req.bytes_result with
    | .ok b => b
    | .error _ => []
  match req.url_result with
  | .error e => .error e
  | .ok url =>
      .ok { body := body, method := req.method, headers := req.headers,
            url := url, edge_request := req.edge_request }

/-- The mutation the body of `redirect` (lib.rs 75-82) performs on the
`ResponseOptions` value it obtained from `use_context`: set the status field
to `Some(302)` and `insert_header("location", path)`. -/
def redirect_on_clone (path : String) (ro : ResponseOptions) : ResponseOptions :=
  { ro with status := some 302, headers := ro.headers.set "location" path }

/-- Model of `redirect` (lib.rs 75-82).  `use_context::<ResponseOptions>()`
returns a clone of the context-stored value (and `ResponseOptions`'s `Clone`
deep-copies its worker `Headers`), so the `if let Some(mut response_options)`
branch mutates that clone and drops it on return; nothing is written back to
the context.  First result component: the context store after the call
(unchanged).  Second component: the mutated clone the source drops, `none`
when no `ResponseOptions` context was provided. -/
def redirect (path : String) (ctx : Option ResponseOptions) :
    Option ResponseOptions × Option ResponseOptions :=
  match ctx with
  | none => (none, none)
  | some ro => (some ro, some (redirect_on_clone path ro))

/-- The observable parts of a `worker::Response`: status, headers, and the
body as the list of chunks handed to the transport in order (a single-element
list for the fully materialized Async response). -/
structure WResponse where
  status : Nat
  headers : Headers
  body : List String
deriving DecidableEq

/-- Model of `build_stream_response` (lib.rs 551-591), the stream assembler
shared by the OutOfOrder, PartiallyBlocked and InOrder handlers.

Program order in the source: pull one chunk from the app stream with
`stream.next().await.unwrap_or_default()` (line 560); build the logical
output stream `head` / that chunk / the remaining app stream / a tail whose
production disposes the runtime (564-572); pull the first two elements of
the logical stream (575-576); read `res_options.status.unwrap_or(200)`
(578); open the response over the primed prefix chained with the rest (582);
set `Content-Type: text/html` on it (583); then run the header loop 586-588,
which appends each of `res_options`'s own header entries back onto
`res_options` via `res_options.append_header` — the response's headers are
never touched by that loop.

First result component: the committed response.  Second: the final state of
`res_options`, exhibiting where the loop's writes actually went. -/
def build_stream_response (head tail : String) (app : List String)
    (res_options : ResponseOptions) : WResponse × ResponseOptions :=
  let first_app_chunk := app.headD ""
  let body := head :: first_app_chunk :: (app.tail ++ [tail])
  let status := res_options.status.getD 200
  let response_headers := (Headers.empty).set "Content-Type" "text/html"
  let res_options :=
    res_options.headers.entries.foldl
      (fun ro kv => ro.append_header kv.1 kv.2) res_options
  ({ status := status, headers := response_headers, body := body }, res_options)

/-- Modelled from the spec: `build_async_response` lives in the external
crate `leptos_integration_utils`, not in this repository.  Per the spec's
Async algorithm it drives the fragment sequence to completion, concatenates
every fragment between the document head and tail, and returns the complete
document. -/
def build_async_response (head tail : String) (app : List String) : String :=
  head ++ String.join app ++ tail

/-- Model of `render_app_async_helper` (lib.rs 427-454), the Async-strategy
assembler: await the complete document from `build_async_response`, read
`res_options.status.unwrap_or(200)` (line 442), build the response from the
whole document (444), set `Content-Type: text/html` (446), then run the
header loop 449-451, which — exactly as in `build_stream_response` — appends
each of `res_options`'s header entries back onto `res_options` itself and
never onto `res`.  Second result component: the final `res_options`. -/
def render_app_async_helper (head tail : String) (app : List String)
    (res_options : ResponseOptions) : WResponse × ResponseOptions :=
  let html := build_async_response head tail app
  let status := res_options.status.getD 200
  let response_headers := (Headers.empty).set "Content-Type" "text/html"
  let res_options :=
    res_options.headers.entries.foldl
      (fun ro kv => ro.append_header kv.1 kv.2) res_options
  ({ status := status, headers := response_headers, body := [html] }, res_options)

/-- One step of the rendering collaborator: the fragment it yields and the
mutation it attempts on the `ResponseOptions` it reads from the reactive
context (for example `redirect_on_clone "/login"`, or the identity for a step
that only renders). -/
structure RenderStep where
  fragment : String
  mutate : ResponseOptions → ResponseOptions

/-- End-to-end model of the streaming handlers (lib.rs 293-311, 338-356,
505-523): the handler creates `res_options := ResponseOptions::default()`,
hands `res_options.clone()` to `provide_contexts`, and passes the original
`res_options` to the assembler.  During rendering each step reads the context
value by clone (`use_context`), applies its mutation to that clone, and drops
it — `ResponseOptions`'s deep `Clone` means neither the context store nor the
handler's `res_options` ever observes the mutation, so every step sees the
pristine store.  First result component: the committed response (built by
`build_stream_response` from the handler's `res_options`).  Second: the list
of mutated, dropped context clones, one per step, exhibiting where the
renderer's mutations went. -/
def run_streaming_request (head tail : String) (steps : List RenderStep) :
    WResponse × List ResponseOptions :=
  let res_options := ResponseOptions.default
  let ctxStore := res_options
  let dropped := steps.map (fun s => s.mutate ctxStore)
  let frags := steps.map (fun s => s.fragment)
  ((build_stream_response head tail frags res_options).1, dropped)

/-- Observable events of one request, recorded in program order:
`pulledApp s` — one element `s` forced from the app fragment stream;
`pulledLogical s` — one element forced from the assembled logical output
stream (head / primed chunk / rest / tail); `readStatus n` — the assembler
read `res_options.status.unwrap_or(200)`, obtaining `n`; `openedResponse` —
the `worker::Response` was constructed; `readHeaders es` — the assembler
iterated `res_options`'s header entries `es`; `handed s` — chunk `s` was
handed to the transport; `disposed` — `runtime.dispose()` ran. -/
inductive Ev
  | pulledApp (s : String)
  | pulledLogical (s : String)
  | readStatus (n : Nat)
  | openedResponse
  | readHeaders (es : List (String × String))
  | handed (s : String)
  | disposed
deriving DecidableEq

/-- Whether an event hands a chunk to the transport. -/
def Ev.isHanded : Ev → Bool
  | .handed _ => true
  | _ => false

/-- Whether an event pulls from the app fragment stream. -/
def Ev.isPulledApp : Ev → Bool
  | .pulledApp _ => true
  | _ => false

/-- The post-priming alternation of `build_stream_response`: each remaining
app fragment is pulled from the app stream when the transport asks for the
next chunk, and handed on immediately. -/
def stream_body_events : List String → List Ev
  | [] => []
  | f :: r => Ev.pulledApp f :: Ev.handed f :: stream_body_events r

/-- Event trace of `build_stream_response` (lib.rs 551-591) in source program
order: line 560 pulls one chunk from the app stream (`unwrap_or_default`
yields `""` when the stream is empty); lines 575-576 pull the first two
elements of the logical output stream — the head and the already-buffered
first app chunk, forcing no further app-stream work; line 578 reads the
status; line 582 constructs the response; lines 586-588 iterate
`res_options`'s header entries; the worker runtime then drives the body
stream: the primed prefix first, then pull/hand pairs for each remaining app
fragment, and finally the tail element, whose production runs
`runtime.dispose()` (line 568) before yielding the tail markup (line 569). -/
def build_stream_trace (head tail : String) (app : List String)
    (ro : ResponseOptions) : List Ev :=
  Ev.pulledApp (app.headD "") ::
  Ev.pulledLogical head ::
  Ev.pulledLogical (app.headD "") ::
  Ev.readStatus (ro.status.getD 200) ::
  Ev.openedResponse ::
  Ev.readHeaders ro.headers.entries ::
  Ev.handed head ::
  Ev.handed (app.headD "") ::
  (stream_body_events app.tail ++ [Ev.disposed, Ev.handed tail])

/-- Event trace of `render_app_async_helper` (lib.rs 427-454) in source
program order: `build_async_response` drains the whole app fragment stream
and disposes the runtime, then line 442 reads the status, line 444
constructs the response from the complete document, lines 449-451 iterate
`res_options`'s header entries, and the single complete document is handed
to the transport. -/
def render_app_async_trace (head tail : String) (app : List String)
    (ro : ResponseOptions) : List Ev :=
  app.map Ev.pulledApp ++
  [Ev.disposed,
   Ev.readStatus (ro.status.getD 200),
   Ev.openedResponse,
   Ev.readHeaders ro.headers.entries,
   Ev.handed (head ++ String.join app ++ tail)]

/-- The four rendering strategies of `leptos_router::SsrMode`. -/
inductive SsrMode
  | outOfOrder | partiallyBlocked | inOrder | async
deriving DecidableEq

/-- The `StaticMode` of a route listing, opaque to this integration. -/
inductive StaticMode
  | upfront | incremental
deriving DecidableEq

/-- Model of `leptos_router::RouteListing` as consumed here: a path, the
original Leptos path, a rendering strategy, the permitted methods, and an
optional static mode. -/
structure RouteListing where
  path : String
  leptos_path : String
  mode : SsrMode
  methods : List WMethod
  static_mode : Option StaticMode
deriving DecidableEq

/-- `RouteListing::new(path, leptos_path, mode, methods, static_mode)`. -/
def RouteListing.new (path leptos_path : String) (mode : SsrMode)
    (methods : List WMethod) (static_mode : Option StaticMode) : RouteListing :=
  { path := path, leptos_path := leptos_path, mode := mode,
    methods := methods, static_mode := static_mode }

/-- The handler shapes a route can be registered with: `stream b` is the
handler that ends in `stream_app(options, app, res_options, || {}, b)` —
`build_stream_response` over the out-of-order renderer with
`replace_blocks = b`; `streamInOrder` ends in `stream_app_in_order` —
`build_stream_response` over the in-order renderer; `fullyAsync` ends in
`render_app_async_helper`. -/
inductive HandlerShape
  | stream (replace_blocks : Bool)
  | streamInOrder
  | fullyAsync
deriving DecidableEq

/-- One `worker::Router` route registration: method, path, handler shape. -/
abbrev Registration := WMethod × String × HandlerShape

/-- Model of `render_app_to_stream_with_context` (lib.rs 284-320): register,
under the given method and path, the handler that calls `stream_app` with
`replace_blocks = false`. -/
def render_app_to_stream_with_context (m : WMethod) (path : String)
    (cf_router : List Registration) : List Registration :=
  cf_router ++ [(m, path, HandlerShape.stream false)]

/-- Model of `render_app_to_stream_with_context_and_replace_blocks`
(lib.rs 329-365): the same handler with `replace_blocks = true`. -/
def render_app_to_stream_with_context_and_replace_blocks (m : WMethod)
    (path : String) (cf_router : List Registration) : List Registration :=
  cf_router ++ [(m, path, HandlerShape.stream true)]

/-- Model of `render_app_async_with_context` (lib.rs 457-493): register the
fully-materialized handler ending in `render_app_async_helper`. -/
def render_app_async_with_context (m : WMethod) (path : String)
    (cf_router : List Registration) : List Registration :=
  cf_router ++ [(m, path, HandlerShape.fullyAsync)]

/-- Model of `render_app_to_stream_in_order_with_context` (lib.rs 496-532):
register the in-order streaming handler ending in `stream_app_in_order`. -/
def render_app_to_stream_in_order_with_context (m : WMethod) (path : String)
    (cf_router : List Registration) : List Registration :=
  cf_router ++ [(m, path, HandlerShape.streamInOrder)]

/-- The `match mode` in the body of `leptos_routes` (lib.rs 645-658). -/
def register_route (listing : RouteListing) (m : WMethod)
    (cf_router : List Registration) : List Registration :=
  match listing.mode with
  | .outOfOrder => render_app_to_stream_with_context m listing.path cf_router
  | .partiallyBlocked =>
      render_app_to_stream_with_context_and_replace_blocks m listing.path cf_router
  | .async => render_app_async_with_context m listing.path cf_router
  | .inOrder => render_app_to_stream_in_order_with_context m listing.path cf_router

/-- Model of `leptos_routes` (lib.rs 639-662): fold over the listings and,
inside, over each listing's methods, re-assigning the router through
`register_route` each time. -/
def leptos_routes (cf_router : List Registration)
    (paths : List RouteListing) : List Registration :=
  paths.foldl (fun cf listing =>
    listing.methods.foldl (fun cf m => register_route listing m cf) cf) cf_router

/-- The handler shape the spec's dispatch table prescribes for each strategy
(spec §4.2); stated separately from the source model so that the C7 theorem
compares the two. -/
def specHandlerShape : SsrMode → HandlerShape
  | .outOfOrder => HandlerShape.stream false
  | .partiallyBlocked => HandlerShape.stream true
  | .inOrder => HandlerShape.streamInOrder
  | .async => HandlerShape.fullyAsync

/-- The registrations the spec prescribes: for each listing, one registration
per permitted method, carrying the shape of the listing's strategy. -/
def spec_registrations : List RouteListing → List Registration
  | [] => []
  | l :: rest =>
      l.methods.map (fun m => (m, l.path, specHandlerShape l.mode))
        ++ spec_registrations rest

/-- Model of `generate_route_list_with_exclusions` (lib.rs 381-424).  The
route discovery `leptos_router::generate_route_list_inner` is external; its
output is the `discovered` argument.  Empty paths are rewritten to `"/"`
keeping the original path as the Leptos path and preserving mode, methods and
static mode; if discovery produced nothing, a single default OutOfOrder GET
listing for `"/"` is returned (`SsrMode`'s `Default` is `OutOfOrder`);
otherwise listings whose path equals an entry of the exclusion list are
dropped.  The per-listing rewrite of lib.rs 391-407 is `normalize_listing`. -/
def normalize_listing (listing : RouteListing) : RouteListing :=
  if listing.path = "" then
    RouteListing.new "/" listing.path listing.mode listing.methods
      listing.static_mode
  else listing

/-- Model of `generate_route_list_with_exclusions` (lib.rs 381-424); route
discovery (`leptos_router::generate_route_list_inner`) is external, its
output is the `discovered` argument. -/
def generate_route_list_with_exclusions (discovered : List RouteListing)
    (excluded_routes : Option (List String)) : List RouteListing :=
  let routes := discovered.map normalize_listing
  if routes.isEmpty then
    [RouteListing.new "/" "" SsrMode.outOfOrder [WMethod.get] none]
  else
    match excluded_routes with
    | some ex => routes.filter (fun p => !(ex.any (fun e => e == p.path)))
    | none => routes

/-- Model of `generate_route_list` (lib.rs 370-375). -/
def generate_route_list (discovered : List RouteListing) : List RouteListing :=
  generate_route_list_with_exclusions discovered none

/-! Helper lemmas. -/

theorem foldl_append_init (l : List String) :
    ∀ a : String, l.foldl (· ++ ·) a = a ++ l.foldl (· ++ ·) "" := by
  induction l with
  | nil => intro a; simp [List.foldl, String.append_empty]
  | cons t r ih =>
      intro a
      simp only [List.foldl_cons]
      rw [ih (a ++ t), ih ("" ++ t), String.empty_append, String.append_assoc]

theorem join_cons (s : String) (l : List String) :
    String.join (s :: l) = s ++ String.join l := by
  simp only [String.join, List.foldl_cons]
  rw [foldl_append_init, String.empty_append]

theorem join_append (l₁ l₂ : List String) :
    String.join (l₁ ++ l₂) = String.join l₁ ++ String.join l₂ := by
  induction l₁ with
  | nil =>
      rw [List.nil_append, show String.join [] = "" from rfl, String.empty_append]
  | cons s r ih =>
      rw [List.cons_append, join_cons, join_cons, ih, String.append_assoc]

theorem stream_body_events_no_disposed (l : List String) :
    Ev.disposed ∉ stream_body_events l := by
  induction l with
  | nil => simp [stream_body_events]
  | cons f r ih => simp [stream_body_events, ih]

theorem stream_body_events_filter_handed (l : List String) :
    (stream_body_events l).filter Ev.isHanded = l.map Ev.handed := by
  induction l with
  | nil => simp [stream_body_events]
  | cons f r ih => simp [stream_body_events, List.filter, Ev.isHanded, ih]

theorem map_pulledApp_filter_handed (l : List String) :
    (l.map Ev.pulledApp).filter Ev.isHanded = [] := by
  induction l with
  | nil => simp
  | cons f r ih => simp [List.filter, Ev.isHanded, ih]

theorem map_pulledApp_filter_pulledApp (l : List String) :
    (l.map Ev.pulledApp).filter Ev.isPulledApp = l.map Ev.pulledApp := by
  induction l with
  | nil => simp
  | cons f r ih => simp [List.filter, Ev.isPulledApp, ih]

theorem disposed_not_mem_map_pulledApp (l : List String) :
    Ev.disposed ∉ l.map Ev.pulledApp := by
  simp [List.mem_map]

theorem register_route_eq (l : RouteListing) (m : WMethod)
    (cf : List Registration) :
    register_route l m cf = cf ++ [(m, l.path, specHandlerShape l.mode)] := by
  cases h : l.mode <;>
    simp [register_route, specHandlerShape, h,
      render_app_to_stream_with_context,
      render_app_to_stream_with_context_and_replace_blocks,
      render_app_async_with_context,
      render_app_to_stream_in_order_with_context]

theorem foldl_register_route (l : RouteListing) :
    ∀ (ms : List WMethod) (cf : List Registration),
      ms.foldl (fun cf m => register_route l m cf) cf
        = cf ++ ms.map (fun m => (m, l.path, specHandlerShape l.mode)) := by
  intro ms
  induction ms with
  | nil => intro cf; simp
  | cons m rest ih =>
      intro cf
      rw [List.foldl_cons, register_route_eq, ih, List.map_cons,
        List.append_assoc, List.singleton_append]

/-! Theorems for the claims. -/

/-- C6: `generate_request_parts` returns an error if and only if the request
URL cannot be parsed; on a parsable URL it succeeds with a snapshot holding
the request's method, URL, headers, and fully buffered body bytes (a body
read failure is swallowed by `unwrap_or_default` and yields an empty body,
not an error). -/
theorem generate_request_parts_ok_iff (req : RawRequest) :
    ((generate_request_parts req).isOk ↔ req.url_result.isOk)
    ∧ (∀ u, req.url_result = .ok u →
        generate_request_parts req =
          .ok { body := (match req.bytes_result with | .ok b => b | .error _ => []),
                method := req.method, headers := req.headers, url := u,
                edge_request := req.edge_request }) := by
  constructor
  · cases h : req.url_result <;>
      simp [generate_request_parts, h, Except.isOk, Except.toBool]
  · intro u hu
    simp [generate_request_parts, hu]

/-- C6 witness: a concrete request whose body read fails but whose URL
parses; `generate_request_parts` succeeds with an empty buffered body. -/
theorem generate_request_parts_ok_iff_witness :
    generate_request_parts
      { bytes_result := .error "read failed", method := WMethod.get,
        headers := Headers.empty, url_result := .ok ⟨"https://example.dev/"⟩,
        edge_request := .ok () } =
      .ok { body := [], method := WMethod.get, headers := Headers.empty,
            url := ⟨"https://example.dev/"⟩, edge_request := .ok () } :=
  (generate_request_parts_ok_iff _).2 _ rfl

/-- C9: calling `redirect` when no `ResponseOptions` context has been
provided is a silent no-op: the `if let Some` test fails, the function
returns normally, the context store is unchanged and no clone is mutated. -/
theorem redirect_no_context_noop (path : String) :
    redirect path none = (none, none) := rfl

/-- C7: `leptos_routes` registers, for every listing and every method in its
permitted-method set, exactly the handler shape of the listing's declared
strategy: OutOfOrder and PartiallyBlocked get the streaming handler with
`replace_blocks` false resp. true, InOrder the in-order streaming handler,
and Async the fully-materialized handler — i.e. the router's registration
list extends the initial one by exactly the spec's dispatch table. -/
theorem leptos_routes_registrations (cf_router : List Registration)
    (paths : List RouteListing) :
    leptos_routes cf_router paths = cf_router ++ spec_registrations paths := by
  induction paths generalizing cf_router with
  | nil => simp [leptos_routes, spec_registrations]
  | cons l rest ih =>
      have h1 : leptos_routes cf_router (l :: rest)
          = leptos_routes
              (l.methods.foldl (fun cf m => register_route l m cf) cf_router)
              rest := rfl
      rw [h1, foldl_register_route, ih]
      simp [spec_registrations, List.append_assoc]

/-- C1: the claim fails on the code.  A rendering step that calls
`redirect("/login")` as its very first action mutates the `ResponseOptions`
clone handed out by `use_context` — the clone carries status 302 and the
`location` header, but it is dropped, and the committed response keeps
status 200 with no `Location` header (and the header loop of
`build_stream_response` would not copy it onto the response either). -/
theorem redirect_first_not_committed :
    (run_streaming_request "<!doc-head>" "<!doc-tail>"
        [⟨"<h1>page</h1>", redirect_on_clone "/login"⟩,
         ⟨"<p>later</p>", fun ro => ro⟩]).1.status = 200
    ∧ (run_streaming_request "<!doc-head>" "<!doc-tail>"
        [⟨"<h1>page</h1>", redirect_on_clone "/login"⟩,
         ⟨"<p>later</p>", fun ro => ro⟩]).1.headers.getAll "Location" = []
    ∧ (run_streaming_request "<!doc-head>" "<!doc-tail>"
        [⟨"<h1>page</h1>", redirect_on_clone "/login"⟩,
         ⟨"<p>later</p>", fun ro => ro⟩]).2
      = [⟨some 302, ⟨[("location", "/login")]⟩⟩,
         ⟨some 200, ⟨[]⟩⟩] := by
  refine ⟨rfl, by decide, rfl⟩

/-- C2: the claim fails on the code.  A header accumulated in
`ResponseOptions` is absent from the committed response of both the
streaming and the Async assembler: the loop `for (key, value) in
res_options.headers` calls `res_options.append_header`, appending every
entry back onto `res_options` itself (doubling it there) and never onto the
response, whose headers stay exactly `content-type: text/html`. -/
theorem metadata_headers_dropped :
    (build_stream_response "<!doc-head>" "<!doc-tail>" ["<p>x</p>"]
        ⟨some 200, ⟨[("set-cookie", "sid=1")]⟩⟩).1.headers.getAll "set-cookie" = []
    ∧ (build_stream_response "<!doc-head>" "<!doc-tail>" ["<p>x</p>"]
        ⟨some 200, ⟨[("set-cookie", "sid=1")]⟩⟩).1.headers.entries
      = [("content-type", "text/html")]
    ∧ (build_stream_response "<!doc-head>" "<!doc-tail>" ["<p>x</p>"]
        ⟨some 200, ⟨[("set-cookie", "sid=1")]⟩⟩).2.headers.entries
      = [("set-cookie", "sid=1"), ("set-cookie", "sid=1")]
    ∧ (render_app_async_helper "<!doc-head>" "<!doc-tail>" ["<p>x</p>"]
        ⟨some 200, ⟨[("set-cookie", "sid=1")]⟩⟩).1.headers.getAll "set-cookie" = []
    ∧ (render_app_async_helper "<!doc-head>" "<!doc-tail>" ["<p>x</p>"]
        ⟨some 200, ⟨[("set-cookie", "sid=1")]⟩⟩).1.headers.entries
      = [("content-type", "text/html")]
    ∧ (render_app_async_helper "<!doc-head>" "<!doc-tail>" ["<p>x</p>"]
        ⟨some 200, ⟨[("set-cookie", "sid=1")]⟩⟩).2.headers.entries
      = [("set-cookie", "sid=1"), ("set-cookie", "sid=1")] := by
  decide

/-- C3: for the streaming strategies, the assembler forces production of
exactly the first two elements of the logical output sequence — the head,
then the primed first body fragment — before reading
`ResponseMetadata.status` (default 200): up to the status read the trace
holds only the initial app-stream pull and those two logical pulls, with
nothing opened or handed.  Moreover the committed response is independent of
every mutation the rendering steps perform (each lands on a dropped
`use_context` clone), so metadata mutated only after the second fragment —
indeed at any point of rendering — leaves the committed response at the
pre-mutation defaults: status 200 and no header besides Content-Type. -/
theorem priming_cutoff (head tail f : String) (rest : List String)
    (steps : List RenderStep)
    (hfrags : steps.map (fun s => s.fragment) = f :: rest) :
    (∃ suf, build_stream_trace head tail (f :: rest) ResponseOptions.default
        = Ev.pulledApp f :: Ev.pulledLogical head :: Ev.pulledLogical f
            :: Ev.readStatus 200 :: suf)
    ∧ (run_streaming_request head tail steps).1
        = (build_stream_response head tail (f :: rest) ResponseOptions.default).1
    ∧ (run_streaming_request head tail steps).1.status = 200
    ∧ (run_streaming_request head tail steps).1.headers.entries
        = [("content-type", "text/html")] := by
  have h2 : (run_streaming_request head tail steps).1
      = (build_stream_response head tail (steps.map (fun s => s.fragment))
          ResponseOptions.default).1 := rfl
  refine ⟨⟨_, rfl⟩, by rw [h2, hfrags], rfl, ?_⟩
  show ((Headers.empty).set "Content-Type" "text/html").entries
      = [("content-type", "text/html")]
  decide

/-- C3 witness: a concrete one-fragment renderer whose only step attempts a
redirect; the committed response still has the default status 200. -/
theorem priming_cutoff_witness :
    (run_streaming_request "<!doc-head>" "<!doc-tail>"
        [⟨"<p>a</p>", redirect_on_clone "/late"⟩]).1.status = 200 :=
  (priming_cutoff "<!doc-head>" "<!doc-tail>" "<p>a</p>" []
      [⟨"<p>a</p>", redirect_on_clone "/late"⟩] rfl).2.2.1

/-- C4: for every renderer producing at least one fragment with no mutation
of the response metadata (the handler's `ResponseOptions` stays at its
default), both assemblers commit status 200 and a body whose content is
head ++ fragments ++ tail: the streaming assembler hands the chunks head,
then every fragment in production order, then tail, and the Async assembler
hands the single concatenated document. -/
theorem body_is_head_fragments_tail (head tail f : String) (rest : List String) :
    (build_stream_response head tail (f :: rest) ResponseOptions.default).1.status = 200
    ∧ (build_stream_response head tail (f :: rest) ResponseOptions.default).1.body
        = head :: (f :: rest) ++ [tail]
    ∧ String.join
        ((build_stream_response head tail (f :: rest) ResponseOptions.default).1.body)
        = head ++ String.join (f :: rest) ++ tail
    ∧ (render_app_async_helper head tail (f :: rest) ResponseOptions.default).1.status
        = 200
    ∧ (render_app_async_helper head tail (f :: rest) ResponseOptions.default).1.body
        = [head ++ String.join (f :: rest) ++ tail] := by
  refine ⟨rfl, rfl, ?_, rfl, rfl⟩
  have hb : (build_stream_response head tail (f :: rest)
      ResponseOptions.default).1.body = head :: f :: (rest ++ [tail]) := rfl
  simp only [hb, join_cons, join_append,
    show String.join [] = "" from rfl, String.append_empty, String.append_assoc]

/-- C5: the Async assembler pulls every app fragment before reading the
response metadata and before constructing the response; exactly one chunk is
ever handed to the transport — the complete concatenated document — and the
committed response carries it with Content-Type text/html and the status
read from the metadata (default 200). -/
theorem async_fully_materialized (head tail : String) (app : List String)
    (ro : ResponseOptions) :
    (render_app_async_trace head tail app ro).filter Ev.isHanded
      = [Ev.handed (head ++ String.join app ++ tail)]
    ∧ (∃ pre mid, render_app_async_trace head tail app ro
          = pre ++ Ev.readStatus (ro.status.getD 200)
              :: (mid ++ [Ev.handed (head ++ String.join app ++ tail)])
        ∧ pre.filter Ev.isPulledApp = app.map Ev.pulledApp
        ∧ pre.filter Ev.isHanded = []
        ∧ Ev.openedResponse ∉ pre
        ∧ mid.filter Ev.isPulledApp = [])
    ∧ (render_app_async_helper head tail app ro).1.body
        = [head ++ String.join app ++ tail]
    ∧ (render_app_async_helper head tail app ro).1.headers.getAll "Content-Type"
        = ["text/html"]
    ∧ (render_app_async_helper head tail app ro).1.status = ro.status.getD 200 := by
  refine ⟨?_,
    ⟨app.map Ev.pulledApp ++ [Ev.disposed],
     [Ev.openedResponse, Ev.readHeaders ro.headers.entries],
     ?_, ?_, ?_, ?_, ?_⟩, rfl, ?_, rfl⟩
  · simp [render_app_async_trace, List.filter_append,
      map_pulledApp_filter_handed, List.filter, Ev.isHanded]
  · simp [render_app_async_trace]
  · simp [List.filter_append, map_pulledApp_filter_pulledApp, List.filter,
      Ev.isPulledApp]
  · simp [List.filter_append, map_pulledApp_filter_handed, List.filter,
      Ev.isHanded]
  · simp [List.mem_append, List.mem_map]
  · simp [List.filter, Ev.isPulledApp]
  · show ((Headers.empty).set "Content-Type" "text/html").getAll "Content-Type"
        = ["text/html"]
    decide

/-- C8 (amended): disposal of the reactive runtime occurs exactly once per
request; in the streaming assembler it is triggered by production of the
tail element of the output sequence — after every fragment before the tail
has been handed to the transport, and immediately before the tail itself is
handed (not after it); in the Async assembler it occurs after the fragment
sequence has been fully drained, before the single complete document is
handed to the transport. -/
theorem disposal_once_at_tail (head tail : String) (app : List String)
    (ro : ResponseOptions) :
    (∃ pre, build_stream_trace head tail app ro
          = pre ++ [Ev.disposed, Ev.handed tail]
        ∧ Ev.disposed ∉ pre
        ∧ pre.filter Ev.isHanded
            = Ev.handed head :: Ev.handed (app.headD "") :: app.tail.map Ev.handed)
    ∧ (∃ pre, render_app_async_trace head tail app ro
          = pre ++ Ev.disposed
              :: [Ev.readStatus (ro.status.getD 200), Ev.openedResponse,
                  Ev.readHeaders ro.headers.entries,
                  Ev.handed (head ++ String.join app ++ tail)]
        ∧ Ev.disposed ∉ pre ∧ pre.filter Ev.isHanded = []) := by
  refine ⟨⟨Ev.pulledApp (app.headD "") :: Ev.pulledLogical head
      :: Ev.pulledLogical (app.headD "") :: Ev.readStatus (ro.status.getD 200)
      :: Ev.openedResponse :: Ev.readHeaders ro.headers.entries
      :: Ev.handed head :: Ev.handed (app.headD "")
      :: stream_body_events app.tail, ?_, ?_, ?_⟩,
    ⟨app.map Ev.pulledApp, ?_, ?_, ?_⟩⟩
  · simp [build_stream_trace, List.append_assoc]
  · simp [stream_body_events_no_disposed]
  · simp [List.filter, Ev.isHanded, stream_body_events_filter_handed]
  · simp [render_app_async_trace]
  · exact disposed_not_mem_map_pulledApp app
  · exact map_pulledApp_filter_handed app

/-- C8 counterexample: on a concrete one-fragment request, the unique
disposal event sits at a strictly smaller trace index than the handing of
the tail chunk — disposal is not strictly after the tail fragment has been
handed to the transport, refuting the claim as stated. -/
theorem disposal_before_tail_handed :
    (build_stream_trace "<!doc-head>" "<!doc-tail>" ["<p>x</p>"]
        ResponseOptions.default).count Ev.disposed = 1
    ∧ Ev.disposed ∈ build_stream_trace "<!doc-head>" "<!doc-tail>" ["<p>x</p>"]
        ResponseOptions.default
    ∧ Ev.handed "<!doc-tail>" ∈ build_stream_trace "<!doc-head>" "<!doc-tail>"
        ["<p>x</p>"] ResponseOptions.default
    ∧ (build_stream_trace "<!doc-head>" "<!doc-tail>" ["<p>x</p>"]
        ResponseOptions.default).indexOf Ev.disposed
      < (build_stream_trace "<!doc-head>" "<!doc-tail>" ["<p>x</p>"]
        ResponseOptions.default).indexOf (Ev.handed "<!doc-tail>") := by
  decide

/-- Every listing the per-listing rewrite produces has a non-empty path. -/
theorem normalize_listing_path_ne (l : RouteListing) :
    (normalize_listing l).path ≠ "" := by
  unfold normalize_listing
  split
  · show ("/" : String) ≠ ""
    decide
  · next h => exact h

theorem route_list_nil (ex : Option (List String)) :
    generate_route_list_with_exclusions [] ex
      = [RouteListing.new "/" "" SsrMode.outOfOrder [WMethod.get] none] := rfl

theorem route_list_cons_none (a : RouteListing) (d : List RouteListing) :
    generate_route_list_with_exclusions (a :: d) none
      = (a :: d).map normalize_listing := rfl

theorem route_list_cons_some (a : RouteListing) (d : List RouteListing)
    (exl : List String) :
    generate_route_list_with_exclusions (a :: d) (some exl)
      = ((a :: d).map normalize_listing).filter
          (fun p => !(exl.any (fun e => e == p.path))) := rfl

/-- C10 (amended): no listing returned by
`generate_route_list_with_exclusions` has an empty path — a discovered
listing with an empty path is rewritten to one for `"/"` that preserves its
mode, methods and static mode; empty discovery yields the single default GET
listing for `"/"` ; with no exclusion list the result is never empty;
excluded paths are removed from a non-empty discovery (so exclusions can
leave the result empty) and never filter the empty-discovery default; and
every discovered listing whose (rewritten) path is not excluded survives
into the result. -/
theorem route_list_invariants (discovered : List RouteListing)
    (excluded_routes : Option (List String)) :
    (∀ l ∈ generate_route_list_with_exclusions discovered excluded_routes,
        l.path ≠ "")
    ∧ (∀ l, l.path = "" → normalize_listing l
        = RouteListing.new "/" l.path l.mode l.methods l.static_mode)
    ∧ (discovered = [] →
        generate_route_list_with_exclusions discovered excluded_routes
          = [RouteListing.new "/" "" SsrMode.outOfOrder [WMethod.get] none])
    ∧ (excluded_routes = none →
        generate_route_list_with_exclusions discovered excluded_routes ≠ [])
    ∧ (∀ exl, excluded_routes = some exl → discovered ≠ [] →
        ∀ l ∈ generate_route_list_with_exclusions discovered excluded_routes,
          l.path ∉ exl)
    ∧ (∀ l ∈ discovered,
        (∀ exl, excluded_routes = some exl → (normalize_listing l).path ∉ exl) →
        normalize_listing l
          ∈ generate_route_list_with_exclusions discovered excluded_routes) := by
  refine ⟨?_, ?_, ?_, ?_, ?_, ?_⟩
  · intro l hl
    cases discovered with
    | nil =>
        rw [route_list_nil] at hl
        simp only [List.mem_singleton] at hl
        subst hl
        show ("/" : String) ≠ ""
        decide
    | cons a d =>
        cases excluded_routes with
        | none =>
            rw [route_list_cons_none] at hl
            obtain ⟨x, _, rfl⟩ := List.mem_map.mp hl
            exact normalize_listing_path_ne x
        | some exl =>
            rw [route_list_cons_some] at hl
            have hm := (List.mem_filter.mp hl).1
            obtain ⟨x, _, rfl⟩ := List.mem_map.mp hm
            exact normalize_listing_path_ne x
  · intro l hl
    simp [normalize_listing, hl]
  · intro h
    subst h
    exact route_list_nil excluded_routes
  · intro h
    subst h
    cases discovered with
    | nil => rw [route_list_nil]; simp
    | cons a d => rw [route_list_cons_none]; simp
  · intro exl hex hd l hl
    subst hex
    cases discovered with
    | nil => exact absurd rfl hd
    | cons a d =>
        rw [route_list_cons_some] at hl
        have hp := (List.mem_filter.mp hl).2
        simp only [Bool.not_eq_true', List.any_eq_false, beq_iff_eq] at hp
        intro hmem
        exact hp l.path hmem rfl
  · intro l hl hnotex
    cases discovered with
    | nil => exact absurd hl (List.not_mem_nil l)
    | cons a d =>
        cases excluded_routes with
        | none =>
            rw [route_list_cons_none]
            exact List.mem_map.mpr ⟨l, hl, rfl⟩
        | some exl =>
            rw [route_list_cons_some]
            refine List.mem_filter.mpr ⟨List.mem_map.mpr ⟨l, hl, rfl⟩, ?_⟩
            simp only [Bool.not_eq_true', List.any_eq_false, beq_iff_eq]
            intro e he hcontra
            exact hnotex exl rfl (hcontra ▸ he)

/-- C10 witness: on empty discovery with no exclusions, the invariants give
the single default GET listing for `"/"` and a non-empty result. -/
theorem route_list_invariants_witness :
    generate_route_list_with_exclusions [] none
      = [RouteListing.new "/" "" SsrMode.outOfOrder [WMethod.get] none]
    ∧ generate_route_list_with_exclusions [] none ≠ [] :=
  ⟨(route_list_invariants [] none).2.2.1 rfl,
   (route_list_invariants [] none).2.2.2.1 rfl⟩

/-- C10 counterexample: one discovered route for `"/"` plus the exclusion
list `["/"]` leaves the returned list empty — refuting the claim that
`generate_route_list_with_exclusions` always returns a non-empty list. -/
theorem route_list_empty_after_exclusion :
    generate_route_list_with_exclusions
      [RouteListing.new "/" "/" SsrMode.outOfOrder [WMethod.get] none]
      (some ["/"]) = [] := by
  decide

end LeptosCloudflare
